import Mathlib

/-!
Verification of the file-stitcher core (combine-files-gpt).

Shallow embedding of the GUI-independent core of the repository:

* `src/combine_files_to_txt.py` — binary sniffing (`_is_binary`), extension
  filtering (`_allowed_ext`), the cart (`_add_to_cart` / `_remove_selected`),
  folder collection (`_add_folder`), export gating (`_accept`) and the text
  writer (`create_txt`);
* `src/combine_files_to_pdf.py` — the text writer (`export_to_txt`) and the
  same cart operations.

Modelling conventions:

* File bytes are `List Nat` (each element < 256 in practice; the definitions
  do not rely on that bound).  Decoded text is a `List Nat` of Unicode code
  points; Latin-1 maps byte `b` to code point `b`.
* Python float arithmetic in `_is_binary` (`non_print / len(chunk) > 0.30`)
  is modelled over `ℚ`.  For samples of at most 2048 bytes the rational
  comparison agrees with the IEEE double comparison: a sample fraction other
  than 3/10 differs from the stored double of 0.30 by at least
  1/20480, far above double rounding error, and the fraction 3/10 itself
  rounds to exactly the same double as the literal 0.30.
* A raised Python exception is modelled by `Option`/dedicated constructors
  (`none` = the exception propagates to the caller).
* Paths appearing only as opaque identities (cart claims) are `Nat`;
  paths whose text matters (extension filtering) are `List Char`.
-/

namespace CombineFiles

set_option maxRecDepth 100000

/-! ### ContentClassifier: `_is_binary` (combine_files_to_txt.py lines 26-27, 163-171) -/

/-- `BINARY_SAMPLE = 2048` — bytes to sniff. -/
def BINARY_SAMPLE : Nat := 2048

/-- `NON_PRINTABLE_THRESHOLD = 0.30`, modelled as the rational 30/100. -/
def NON_PRINTABLE_THRESHOLD : ℚ := 30 / 100

/-- One byte of the generator expression in `_is_binary`:
`b < 32 and b not in (9, 10, 13) or b == 127`
(Python precedence: `(b < 32 and b not in (9,10,13)) or (b == 127)`). -/
def isNonPrintableByte (b : Nat) : Bool :=
  (b < 32 && !(b == 9 || b == 10 || b == 13)) || b == 127

/-- The body of `_is_binary` once `chunk` has been sliced: return `True` on a
NUL byte, else compare the non-printable fraction against the threshold
(`non_print / len(chunk) > NON_PRINTABLE_THRESHOLD`, guarded by
`len(chunk) > 0`). -/
def binaryCore (chunk : List Nat) : Bool :=
  if chunk.contains 0 then true
  else
    decide (0 < chunk.length ∧
      ((chunk.filter isNonPrintableByte).length : ℚ) / (chunk.length : ℚ) >
        NON_PRINTABLE_THRESHOLD)

/-- `_is_binary(path)` on the bytes successfully read from the file:
`chunk = path.read_bytes()[:BINARY_SAMPLE]`, then the core above.
(The `except Exception: return True` arm is modelled by `is_binary_read`.) -/
def is_binary (content : List Nat) : Bool :=
  binaryCore (content.take BINARY_SAMPLE)

/-- Spec-side reading of one non-printable byte: a control character below 32
outside the allowed set 9/10/13, or DEL(127). -/
def specNonPrintable (b : Nat) : Prop :=
  (b < 32 ∧ b ∉ ([9, 10, 13] : List Nat)) ∨ b = 127

instance (b : Nat) : Decidable (specNonPrintable b) := by
  unfold specNonPrintable; infer_instance

/-- Spec-side fraction of non-printable bytes of a sample; division by zero
in `ℚ` yields 0, matching the spec convention for an empty sample. -/
def specFraction (sample : List Nat) : ℚ :=
  ((sample.countP (fun b => decide (specNonPrintable b))) : ℚ) / (sample.length : ℚ)

/-- Spec-side classifier (claim C1): BINARY iff the sampled 2048-byte
prefix contains a NUL byte, or its non-printable fraction strictly
exceeds 0.30. -/
def specIsBinary (content : List Nat) : Prop :=
  0 ∈ content.take 2048 ∨ specFraction (content.take 2048) > 30 / 100

/-- A 1000-byte sample with exactly 300 non-printable bytes (30.0 %). -/
def sample300 : List Nat := List.replicate 300 1 ++ List.replicate 700 65

/-- A 1000-byte sample with exactly 301 non-printable bytes (30.1 %). -/
def sample301 : List Nat := List.replicate 301 1 ++ List.replicate 699 65

/-! ### Cart operations: `_add_to_cart`, `_remove_selected`
(combine_files_to_txt.py lines 192-201; combine_files_to_pdf.py lines 137-162)

Paths enter the cart only through `_add_to_cart` and leave it only through
`_remove_selected`; a cart path is modelled by its identity (`Nat`). -/

/-- One user-level cart event: clicking Add on a file, or Remove on a cart
row.  A Remove of a path not currently in the cart is expressible here but
not reachable through the UI (the row is read from the cart list itself). -/
inductive CartOp where
  | add (p : Nat)
  | remove (p : Nat)
deriving DecidableEq

/-- `_add_to_cart`: `if path not in self.cart_files: self.cart_files.append(path)`
(generic in the path identity type). -/
def addToCart {α : Type} [DecidableEq α] (cart : List α) (p : α) : List α :=
  if p ∈ cart then cart else cart ++ [p]

/-- Python `list.remove(path)` as used by `_remove_selected`:
removes the first exact-match occurrence; raises `ValueError` (`none`)
when the path is absent. -/
def pyListRemove (cart : List Nat) (p : Nat) : Option (List Nat) :=
  if p ∈ cart then some (cart.erase p) else none

/-- A session of cart events starting from a given cart.  `none` models a
`ValueError` escaping from `list.remove` (only possible for a Remove of an
absent path, which the UI never issues). -/
def runOps : List Nat → List CartOp → Option (List Nat)
  | cart, [] => some cart
  | cart, CartOp.add p :: rest => runOps (addToCart cart p) rest
  | cart, CartOp.remove p :: rest =>
      if p ∈ cart then runOps (cart.erase p) rest else none

/-- The paths of the add events, in order. -/
def addsOf : List CartOp → List Nat
  | [] => []
  | CartOp.add p :: rest => p :: addsOf rest
  | CartOp.remove _ :: rest => addsOf rest

/-- The paths of the remove events. -/
def removesOf : List CartOp → List Nat
  | [] => []
  | CartOp.add _ :: rest => removesOf rest
  | CartOp.remove p :: rest => p :: removesOf rest

/-- No path is added again after a removal of that path. -/
def noReAdd : List CartOp → Bool
  | [] => true
  | CartOp.add _ :: rest => noReAdd rest
  | CartOp.remove p :: rest => decide (p ∉ addsOf rest) && noReAdd rest

/-- First-occurrence deduplication, fuelled to stay structurally
recursive (the fuel is always at least the list length). -/
def firstDedupF : Nat → List Nat → List Nat
  | _, [] => []
  | 0, _ :: _ => []
  | fuel + 1, p :: rest => p :: firstDedupF fuel (rest.filter (fun q => q != p))

/-- Deduplication of a list keeping the first occurrence of each element. -/
def firstDedup (l : List Nat) : List Nat := firstDedupF l.length l

/-- Spec-side cart (claim C3): the add order, first occurrences only,
restricted to the paths never removed. -/
def specCart (ops : List CartOp) : List Nat :=
  (firstDedup (addsOf ops)).filter (fun q => decide (q ∉ removesOf ops))

/-! ### Export gating: `_accept`
(combine_files_to_txt.py lines 203-208; combine_files_to_pdf.py lines 165-170) -/

/-- Outcome of clicking Generate: on an empty cart `_accept` shows the
"Nothing selected" warning and returns without handing any file list to
the exporter (so no output file is produced and nothing is raised);
otherwise the cart is handed over unchanged for export. -/
inductive AcceptOutcome where
  | warnedEmpty
  | accepted (files : List Nat)
deriving DecidableEq

/-- `_accept`: `if not self.cart_files: showwarning(...); return` else hand
the cart to the exporter. -/
def accept (cart : List Nat) : AcceptOutcome :=
  if cart.isEmpty then AcceptOutcome.warnedEmpty else AcceptOutcome.accepted cart

/-! ### Extension filter: `_allowed_ext` (combine_files_to_txt.py lines 156-161)

Strings are `List Char`.  Case folding is modelled on ASCII (the code uses
Python `str.lower`, which agrees on ASCII); `str.strip` whitespace is the
Python `str.isspace` set. -/

/-- Python `str.isspace` for a character. -/
def isPySpaceChar (c : Char) : Bool :=
  (9 ≤ c.toNat && c.toNat ≤ 13) || (28 ≤ c.toNat && c.toNat ≤ 31) ||
  c.toNat == 32 || c.toNat == 133 || c.toNat == 160 || c.toNat == 0x1680 ||
  (0x2000 ≤ c.toNat && c.toNat ≤ 0x200A) || c.toNat == 0x2028 ||
  c.toNat == 0x2029 || c.toNat == 0x205F || c.toNat == 0x3000

/-- Python `str.strip()`: drop leading and trailing whitespace. -/
def pyStrip (s : List Char) : List Char :=
  ((s.dropWhile isPySpaceChar).reverse.dropWhile isPySpaceChar).reverse

/-- Python `raw.split(',')`: always yields at least one (possibly empty)
piece; empty pieces between consecutive commas are kept. -/
def splitOnComma : List Char → List (List Char)
  | [] => [[]]
  | c :: rest =>
    if c == ',' then [] :: splitOnComma rest
    else
      match splitOnComma rest with
      | t :: ts => (c :: t) :: ts
      | [] => [[c]]

/-- ASCII case folding (Python `str.lower` restricted to ASCII). -/
def pyLower (c : Char) : Char :=
  if 'A' ≤ c && c ≤ 'Z' then Char.ofNat (c.toNat + 32) else c

/-- One filter entry normalized: `f".{e.strip().lstrip('.').lower()}"`. -/
def normalizeEntry (e : List Char) : List Char :=
  '.' :: (((pyStrip e).dropWhile (fun c => c == '.')).map pyLower)

/-- The `allowed` set built by `_allowed_ext` from the stripped raw filter
text: split on commas, keep entries whose strip is non-empty, normalize.
(Python uses a set; membership is all that matters, so a list suffices.) -/
def allowedSetOf (raw : List Char) : List (List Char) :=
  ((splitOnComma raw).filter (fun e => !(pyStrip e).isEmpty)).map normalizeEntry

/-- The final component of a POSIX path: the text after the last slash. -/
def lastComponent (path : List Char) : List Char :=
  (path.reverse.takeWhile (fun c => c != '/')).reverse

/-- `PurePath.suffix` on a component name: the part from the last dot,
provided that dot is neither the first nor the last character. -/
def pySuffixName (name : List Char) : List Char :=
  match name.reverse.findIdx? (fun c => c == '.') with
  | some j =>
    let i := name.length - 1 - j
    if 0 < i && i < name.length - 1 then name.drop i else []
  | none => []

/-- `path.suffix` for a file path. -/
def pySuffix (path : List Char) : List Char := pySuffixName (lastComponent path)

/-- `_allowed_ext(path)` with the raw text of the extension-filter entry
field: blank filter allows everything; otherwise the lower-cased suffix
must be in the derived allowed set. -/
def allowed_ext (input path : List Char) : Bool :=
  let raw := pyStrip input
  if raw.isEmpty then true
  else (allowedSetOf raw).contains ((pySuffix path).map pyLower)

/-! ### Decoding and the text writers
(`export_to_txt`, combine_files_to_pdf.py lines 178-190;
`create_txt`, combine_files_to_txt.py lines 221-231)

File bytes are `List Nat`; decoded text is a `List Nat` of code points. -/

/-- Strict UTF-8 decoding of a byte list to code points, as Python's utf-8
codec accepts it: well-formed sequences only — no overlong forms, no
surrogates (0xED limits its continuation), nothing above U+10FFFF (0xF4
limits its continuation). `none` models `UnicodeDecodeError`. -/
def utf8Decode? : List Nat → Option (List Nat)
  | [] => some []
  | b :: rest =>
    if b ≤ 0x7F then
      (utf8Decode? rest).map (fun cs => b :: cs)
    else if 0xC2 ≤ b && b ≤ 0xDF then
      match rest with
      | b1 :: rest1 =>
        if 0x80 ≤ b1 && b1 ≤ 0xBF then
          (utf8Decode? rest1).map (fun cs => ((b - 0xC0) * 64 + (b1 - 0x80)) :: cs)
        else none
      | [] => none
    else if 0xE0 ≤ b && b ≤ 0xEF then
      match rest with
      | b1 :: b2 :: rest2 =>
        if (if b == 0xE0 then 0xA0 ≤ b1 && b1 ≤ 0xBF
            else if b == 0xED then 0x80 ≤ b1 && b1 ≤ 0x9F
            else 0x80 ≤ b1 && b1 ≤ 0xBF) && (0x80 ≤ b2 && b2 ≤ 0xBF) then
          (utf8Decode? rest2).map
            (fun cs => ((b - 0xE0) * 4096 + (b1 - 0x80) * 64 + (b2 - 0x80)) :: cs)
        else none
      | _ => none
    else if 0xF0 ≤ b && b ≤ 0xF4 then
      match rest with
      | b1 :: b2 :: b3 :: rest3 =>
        if (if b == 0xF0 then 0x90 ≤ b1 && b1 ≤ 0xBF
            else if b == 0xF4 then 0x80 ≤ b1 && b1 ≤ 0x8F
            else 0x80 ≤ b1 && b1 ≤ 0xBF) &&
            (0x80 ≤ b2 && b2 ≤ 0xBF) && (0x80 ≤ b3 && b3 ≤ 0xBF) then
          (utf8Decode? rest3).map
            (fun cs => ((b - 0xF0) * 262144 + (b1 - 0x80) * 4096 +
              (b2 - 0x80) * 64 + (b3 - 0x80)) :: cs)
        else none
      | _ => none
    else none

/-- Universal-newline translation performed by `Path.read_text` (text mode,
`newline=None`): CRLF and lone CR both become LF. -/
def universalNewlines : List Nat → List Nat
  | [] => []
  | 13 :: 10 :: rest => 10 :: universalNewlines rest
  | 13 :: rest => 10 :: universalNewlines rest
  | c :: rest => c :: universalNewlines rest

/-- `bytes.decode("latin-1")`: byte `b` becomes code point `b`; total on
every byte value, with no newline translation (binary read). -/
def latin1Decode (bytes : List Nat) : List Nat := bytes

/-- The shared read-and-decode step of both writers:
`try: text = path.read_text(encoding="utf-8")`
`except UnicodeDecodeError: text = path.read_bytes().decode("latin-1")`. -/
def readFileText (bytes : List Nat) : List Nat :=
  match utf8Decode? bytes with
  | some cps => universalNewlines cps
  | none => latin1Decode bytes

/-- Python `str.isspace` on a code point. -/
def isPySpaceCp (c : Nat) : Bool :=
  (9 ≤ c && c ≤ 13) || (28 ≤ c && c ≤ 31) || c == 32 || c == 133 ||
  c == 160 || c == 0x1680 || (0x2000 ≤ c && c ≤ 0x200A) || c == 0x2028 ||
  c == 0x2029 || c == 0x205F || c == 0x3000

/-- Python `str.rstrip()`: drop trailing whitespace code points. -/
def pyRstrip (s : List Nat) : List Nat :=
  (s.reverse.dropWhile isPySpaceCp).reverse

/-- `HEADER_RULE_LEN = 80` (combine_files_to_pdf.py). -/
def HEADER_RULE_LEN : Nat := 80

/-- `HEADER_RULE = 80` (combine_files_to_txt.py). -/
def HEADER_RULE : Nat := 80

/-- `export_to_txt(paths, out_txt)` from combine_files_to_pdf.py, writing
per file `f"{header}\n{rule}\n\n"` then `text.rstrip() + "\n\n"`.  Each
file is the pair of its header text `str(path)` and its raw bytes; the
document is the concatenation of sequential writes. -/
def export_to_txt (files : List (List Nat × List Nat)) : List Nat :=
  files.foldl (fun doc f =>
    doc ++ f.1 ++ [10] ++ List.replicate (min HEADER_RULE_LEN f.1.length) 61 ++
      [10, 10] ++ pyRstrip (readFileText f.2) ++ [10, 10]) []

/-- `create_txt(paths, out)` from combine_files_to_txt.py, writing per file
`f"\n{header}\n{rule}\n\n"` then the decoded text verbatim then `"\n"`. -/
def create_txt (files : List (List Nat × List Nat)) : List Nat :=
  files.foldl (fun doc f =>
    doc ++ [10] ++ f.1 ++ [10] ++ List.replicate (min HEADER_RULE f.1.length) 61 ++
      [10, 10] ++ readFileText f.2 ++ [10]) []

/-- One record of the text-export format described by claim C2: a header
line with the path, a rule line of min(80, len(header)) equals signs, a
blank line, the trailing-whitespace-trimmed content, and a blank line
separating it from the next record. -/
def specRecord (header content : List Nat) : List Nat :=
  header ++ [10] ++ List.replicate (min 80 header.length) 61 ++ [10] ++ [10] ++
    pyRstrip content ++ [10] ++ [10]

/-- The claimed document format: the records in cart order. -/
def specTxtDocument (files : List (List Nat × List Nat)) : List Nat :=
  (files.map (fun f => specRecord f.1 (readFileText f.2))).flatten

/-! ### Read failures: collection versus writing
(`_is_binary` try/except, combine_files_to_txt.py lines 163-171;
`_add_folder`, lines 187-190; `create_txt`, lines 221-231) -/

/-- The outcome of reading a file from disk: its bytes, or an OS-level
failure (permission denied, path vanished, ...). -/
inductive ReadResult where
  | ok (bytes : List Nat)
  | oserror
deriving DecidableEq

/-- `_is_binary` including its `try/except Exception`: any read failure
returns True (BINARY). -/
def is_binary_read : ReadResult → Bool
  | ReadResult.ok bytes => is_binary bytes
  | ReadResult.oserror => true

/-- `_should_include(path)` = `_allowed_ext(path) and not _is_binary(path)`;
a candidate file is the pair of its path text and its read outcome. -/
def should_include (extInput : List Char) (f : List Char × ReadResult) : Bool :=
  allowed_ext extInput f.1 && !(is_binary_read f.2)

/-- `_add_folder`: pass every enumerated file through `_should_include`,
appending the keepers to the cart; the loop itself never raises. -/
def add_folder (extInput : List Char) (cart : List (List Char))
    (files : List (List Char × ReadResult)) : List (List Char) :=
  files.foldl (fun c f => if should_include extInput f then addToCart c f.1 else c)
    cart

/-- `create_txt` with the per-file read outcome explicit.  The writer's
`try/except` catches only `UnicodeDecodeError`; an OS error raised by
`read_text`/`read_bytes` is not caught, so it propagates and the export
aborts (`none`). -/
def create_txt_run : List (List Nat × ReadResult) → Option (List Nat)
  | [] => some []
  | f :: rest =>
    match f.2 with
    | ReadResult.oserror => none
    | ReadResult.ok bytes =>
      (create_txt_run rest).map (fun doc =>
        [10] ++ f.1 ++ [10] ++ List.replicate (min HEADER_RULE f.1.length) 61 ++
          [10, 10] ++ readFileText bytes ++ [10] ++ doc)

/-! ### Theorems -/

/-- The source predicate and the spec predicate agree byte-wise. -/
lemma isNonPrintableByte_eq_decide (b : Nat) :
    isNonPrintableByte b = decide (specNonPrintable b) := by
  rw [Bool.eq_iff_iff]
  simp [isNonPrintableByte, specNonPrintable]
  tauto

/-- The threshold comparison in cross-multiplied integer form. -/
lemma frac_gt_iff (np len : Nat) (hlen : 0 < len) :
    (np : ℚ) / (len : ℚ) > 30 / 100 ↔ 100 * np > 30 * len := by
  rw [gt_iff_lt, div_lt_div_iff₀ (by norm_num : (0 : ℚ) < 100)
    (by exact_mod_cast hlen : (0 : ℚ) < (len : ℚ))]
  rw [show ((30 : ℚ) * (len : ℚ) = ((30 * len : Nat) : ℚ)) by push_cast; ring,
    show ((np : ℚ) * 100 = ((100 * np : Nat) : ℚ)) by push_cast; ring]
  exact ⟨fun h => by exact_mod_cast h, fun h => by exact_mod_cast h⟩

/-- Integer reformulation of the classifier core decision. -/
lemma binaryCore_iff_nat (sample : List Nat) :
    binaryCore sample = true ↔
      0 ∈ sample ∨
        100 * (sample.filter isNonPrintableByte).length > 30 * sample.length := by
  unfold binaryCore
  cases hc : sample.contains 0 with
  | true =>
    have hmem : (0 : Nat) ∈ sample := List.elem_iff.mp hc
    simp [hc, hmem]
  | false =>
    have hmem : (0 : Nat) ∉ sample := by
      intro hm
      have hc' : sample.contains 0 = true := List.elem_iff.mpr hm
      rw [hc'] at hc
      exact Bool.true_eq_false.mp hc
    simp only [hc, Bool.false_eq_true, if_false, decide_eq_true_eq,
      NON_PRINTABLE_THRESHOLD]
    rw [or_iff_right hmem]
    rcases Nat.eq_zero_or_pos sample.length with h0 | hpos
    · have hnil : sample = [] := List.length_eq_zero.mp h0
      subst hnil
      simp
    · rw [and_iff_right hpos]
      exact frac_gt_iff _ _ hpos

/-- Integer reformulation of `_is_binary`. -/
lemma is_binary_iff_nat (content : List Nat) :
    is_binary content = true ↔
      0 ∈ content.take 2048 ∨
        100 * ((content.take 2048).filter isNonPrintableByte).length >
          30 * (content.take 2048).length := by
  unfold is_binary
  simp only [BINARY_SAMPLE]
  exact binaryCore_iff_nat _

/-- The spec-side classifier matches the same integer reformulation. -/
lemma specIsBinary_iff_nat (content : List Nat) :
    specIsBinary content ↔
      0 ∈ content.take 2048 ∨
        100 * ((content.take 2048).filter isNonPrintableByte).length >
          30 * (content.take 2048).length := by
  unfold specIsBinary specFraction
  generalize content.take 2048 = sample
  have hcount : (sample.countP (fun b => decide (specNonPrintable b))) =
      (sample.filter isNonPrintableByte).length := by
    rw [List.countP_eq_length_filter]
    congr 1
    exact List.filter_congr (fun b _ => (isNonPrintableByte_eq_decide b).symm)
  rw [hcount]
  rcases Nat.eq_zero_or_pos sample.length with h0 | hpos
  · have hnil : sample = [] := List.length_eq_zero.mp h0
    subst hnil
    simp
    norm_num
  · exact or_congr Iff.rfl (frac_gt_iff _ _ hpos)

/-- Claim C1: `_is_binary` returns BINARY iff the sampled prefix contains a
NUL byte or the non-printable fraction strictly exceeds 0.30; a 300/1000
sample is TEXT, a 301/1000 sample is BINARY, and an empty file is TEXT. -/
theorem is_binary_spec :
    (∀ content : List Nat, is_binary content = true ↔ specIsBinary content) ∧
    is_binary sample300 = false ∧
    is_binary sample301 = true ∧
    is_binary [] = false := by
  refine ⟨fun content =>
    (is_binary_iff_nat content).trans (specIsBinary_iff_nat content).symm, ?_, ?_, ?_⟩
  · rw [Bool.eq_false_iff, Ne, is_binary_iff_nat]
    decide
  · rw [is_binary_iff_nat]
    decide
  · rw [Bool.eq_false_iff, Ne, is_binary_iff_nat]
    decide

/-- Claim C10: the classification depends only on the first 2048 bytes. -/
theorem is_binary_sample_bounded (c₁ c₂ : List Nat)
    (h : c₁.take 2048 = c₂.take 2048) : is_binary c₁ = is_binary c₂ := by
  unfold is_binary
  simp only [BINARY_SAMPLE, h]

/-- Witness for C10: a NUL byte at offset 2048 does not change the result. -/
theorem is_binary_sample_bounded_witness :
    is_binary (List.replicate 2048 65 ++ [0]) = is_binary (List.replicate 2048 65) :=
  is_binary_sample_bounded _ _ (by
    have hlen : (List.replicate 2048 (65 : Nat)).length = 2048 :=
      List.length_replicate 2048 65
    rw [List.take_append_of_le_length (le_of_eq hlen.symm)])

/-- The fuel of `firstDedupF` is irrelevant once it covers the length. -/
lemma firstDedupF_congr : ∀ (f₁ f₂ : Nat) (l : List Nat),
    l.length ≤ f₁ → l.length ≤ f₂ → firstDedupF f₁ l = firstDedupF f₂ l
  | f₁, f₂, [], _, _ => by cases f₁ <;> cases f₂ <;> rfl
  | 0, _, _ :: _, h₁, _ => absurd h₁ (by simp)
  | _ + 1, 0, _ :: _, _, h₂ => absurd h₂ (by simp)
  | f₁ + 1, f₂ + 1, p :: rest, h₁, h₂ => by
      simp only [firstDedupF]
      congr 1
      have hr₁ : rest.length ≤ f₁ := by simpa using h₁
      have hr₂ : rest.length ≤ f₂ := by simpa using h₂
      exact firstDedupF_congr f₁ f₂ _
        (le_trans (List.length_filter_le _ _) hr₁)
        (le_trans (List.length_filter_le _ _) hr₂)

/-- Unfolding lemma for `firstDedup` on a cons cell. -/
lemma firstDedup_cons (p : Nat) (l : List Nat) :
    firstDedup (p :: l) = p :: firstDedup (l.filter (fun q => q != p)) := by
  unfold firstDedup
  simp only [List.length_cons, firstDedupF]
  congr 1
  exact firstDedupF_congr _ _ _ (List.length_filter_le _ _) (Nat.le_refl _)

/-- Members of the deduplicated list are members of the original. -/
lemma mem_firstDedupF : ∀ (fuel : Nat) (l : List Nat) (q : Nat),
    q ∈ firstDedupF fuel l → q ∈ l
  | fuel, [], _, h => by cases fuel <;> simp [firstDedupF] at h
  | 0, _ :: _, _, h => by simp [firstDedupF] at h
  | fuel + 1, p :: rest, q, h => by
      simp only [firstDedupF, List.mem_cons] at h
      rcases h with h | h
      · exact h ▸ List.mem_cons_self p rest
      · exact List.mem_cons_of_mem p
          (List.mem_of_mem_filter (mem_firstDedupF fuel _ q h))

/-- Members of the deduplicated list are members of the original. -/
lemma mem_firstDedup (l : List Nat) (q : Nat) (h : q ∈ firstDedup l) : q ∈ l :=
  mem_firstDedupF _ l q h

/-- `firstDedup` commutes with `filter`. -/
lemma firstDedupF_filter (P : Nat → Bool) : ∀ (fuel : Nat) (l : List Nat),
    l.length ≤ fuel → firstDedupF fuel (l.filter P) = (firstDedupF fuel l).filter P
  | fuel, [], _ => by cases fuel <;> simp [firstDedupF]
  | 0, a :: t, h => by simp at h
  | fuel + 1, a :: t, h => by
      have ht : t.length ≤ fuel := by simpa using h
      cases hP : P a with
      | true =>
        rw [List.filter_cons_of_pos hP]
        simp only [firstDedupF, List.filter_cons_of_pos hP]
        congr 1
        rw [show (t.filter P).filter (fun q => q != a) =
            (t.filter (fun q => q != a)).filter P by
          rw [List.filter_filter, List.filter_filter]
          exact List.filter_congr (fun x _ => Bool.and_comm _ _)]
        exact firstDedupF_filter P fuel (t.filter (fun q => q != a))
          (le_trans (List.length_filter_le _ _) ht)
      | false =>
        have hP' : ¬ P a = true := by simp [hP]
        rw [List.filter_cons_of_neg hP']
        simp only [firstDedupF, List.filter_cons_of_neg hP']
        have hid : (t.filter P).filter (fun q => q != a) = t.filter P := by
          apply List.filter_eq_self.mpr
          intro x hx
          have hPx : P x = true := List.of_mem_filter hx
          have hxa : x ≠ a := fun hxa => by
            rw [hxa, hP] at hPx
            exact Bool.false_ne_true hPx
          simpa using hxa
        calc firstDedupF (fuel + 1) (t.filter P)
            = firstDedupF fuel (t.filter P) :=
              firstDedupF_congr _ _ _
                (le_trans (List.length_filter_le _ _) (Nat.le_succ_of_le ht))
                (le_trans (List.length_filter_le _ _) ht)
          _ = firstDedupF fuel ((t.filter P).filter (fun q => q != a)) := by
              rw [hid]
          _ = firstDedupF fuel ((t.filter (fun q => q != a)).filter P) := by
              rw [List.filter_filter, List.filter_filter]
              exact congrArg _ (List.filter_congr (fun x _ => Bool.and_comm _ _))
          _ = (firstDedupF fuel (t.filter (fun q => q != a))).filter P :=
              firstDedupF_filter P fuel _ (le_trans (List.length_filter_le _ _) ht)

/-- `firstDedup` commutes with `filter`. -/
lemma firstDedup_filter (P : Nat → Bool) (l : List Nat) :
    firstDedup (l.filter P) = (firstDedup l).filter P := by
  unfold firstDedup
  rw [firstDedupF_congr (l.filter P).length l.length (l.filter P)
    (Nat.le_refl _) (List.length_filter_le _ _)]
  exact firstDedupF_filter P l.length l (Nat.le_refl _)

/-- Generalized cart invariant: starting from a duplicate-free cart and
running events that never re-add a removed path, the final cart is the
survivors of the initial cart followed by the surviving new first adds. -/
lemma runOps_eq (ops : List CartOp) : ∀ (cart res : List Nat), cart.Nodup →
    noReAdd ops = true → runOps cart ops = some res →
    res = cart.filter (fun q => decide (q ∉ removesOf ops)) ++
      (firstDedup (addsOf ops)).filter
        (fun q => decide (q ∉ cart) && decide (q ∉ removesOf ops)) := by
  induction ops with
  | nil =>
    intro cart res _ _ hrun
    simp only [runOps, Option.some.injEq] at hrun
    subst hrun
    simp [removesOf, addsOf, firstDedup, firstDedupF]
  | cons op rest ih =>
    intro cart res hnd hna hrun
    cases op with
    | add p =>
      rw [show runOps cart (CartOp.add p :: rest) = runOps (addToCart cart p) rest
        from rfl] at hrun
      have hna' : noReAdd rest = true := hna
      by_cases hp : p ∈ cart
      · rw [show addToCart cart p = cart by simp [addToCart, hp]] at hrun
        rw [ih cart res hnd hna' hrun]
        simp only [removesOf, addsOf]
        congr 1
        rw [firstDedup_cons, List.filter_cons_of_neg (by simp [hp]),
          firstDedup_filter, List.filter_filter]
        apply List.filter_congr
        intro q _
        by_cases hqp : q = p
        · subst hqp
          simp [hp]
        · simp [hqp]
      · have hnd2 : (cart ++ [p]).Nodup := by
          simp [List.nodup_append, hnd, hp]
        rw [show addToCart cart p = cart ++ [p] by simp [addToCart, hp]] at hrun
        rw [ih (cart ++ [p]) res hnd2 hna' hrun]
        simp only [removesOf, addsOf]
        rw [List.filter_append, firstDedup_cons]
        have hW : (firstDedup (addsOf rest)).filter
              (fun q => decide (q ∉ cart ++ [p]) && decide (q ∉ removesOf rest)) =
            (firstDedup ((addsOf rest).filter (fun q => q != p))).filter
              (fun q => decide (q ∉ cart) && decide (q ∉ removesOf rest)) := by
          rw [firstDedup_filter, List.filter_filter]
          apply List.filter_congr
          intro q _
          by_cases hqp : q = p
          · subst hqp
            simp
          · simp [List.mem_append, hqp]
        rw [hW]
        by_cases hQ : p ∈ removesOf rest
        · rw [List.filter_cons_of_neg (by simp [hQ]),
            List.filter_cons_of_neg (by simp [hQ, hp])]
          simp
        · rw [List.filter_cons_of_pos (by simp [hQ]),
            List.filter_cons_of_pos (by simp [hQ, hp])]
          simp
    | remove p =>
      rw [show runOps cart (CartOp.remove p :: rest) =
        (if p ∈ cart then runOps (cart.erase p) rest else none) from rfl] at hrun
      have hna2 : p ∉ addsOf rest ∧ noReAdd rest = true := by
        have : (decide (p ∉ addsOf rest) && noReAdd rest) = true := hna
        simpa using this
      by_cases hp : p ∈ cart
      · rw [if_pos hp] at hrun
        rw [ih (cart.erase p) res (hnd.erase p) hna2.2 hrun]
        simp only [removesOf, addsOf]
        congr 1
        · rw [hnd.erase_eq_filter p, List.filter_filter]
          apply List.filter_congr
          intro q _
          by_cases hqp : q = p
          · subst hqp
            simp
          · simp [hqp, List.mem_cons]
        · apply List.filter_congr
          intro q hq
          have hqA : q ∈ addsOf rest := mem_firstDedup _ _ hq
          have hqp : q ≠ p := fun h => hna2.1 (h ▸ hqA)
          have herase : (q ∈ cart.erase p) = (q ∈ cart) := by
            simp [List.mem_erase_of_ne hqp]
          simp [herase, List.mem_cons, hqp]
      · rw [if_neg hp] at hrun
        exact absurd hrun (by simp)

/-- Claim C3 (amended): if no path is re-added after being removed, a
session from the empty cart that never removes an absent path ends with
exactly the never-removed paths, in first-add order. -/
theorem cart_order_preservation (ops : List CartOp) (cart : List Nat)
    (hna : noReAdd ops = true) (hrun : runOps [] ops = some cart) :
    cart = specCart ops := by
  rw [runOps_eq ops [] cart List.nodup_nil hna hrun]
  unfold specCart
  simp

/-- Witness for C3: add 1, add 2, remove 1 ends with cart `[2]`. -/
theorem cart_order_preservation_witness :
    ([2] : List Nat) = specCart [CartOp.add 1, CartOp.add 2, CartOp.remove 1] :=
  cart_order_preservation _ _ (by decide) (by decide)

/-- Counterexample to claim C3 as stated: re-adding path 0 after removing
it leaves `[0]` in the cart, while the subsequence of the overall add order
consisting of never-removed paths is empty. -/
theorem cart_order_counterexample :
    runOps [] [CartOp.add 0, CartOp.remove 0, CartOp.add 0] = some [0] ∧
    specCart [CartOp.add 0, CartOp.remove 0, CartOp.add 0] = [] ∧
    runOps [] [CartOp.add 0, CartOp.remove 0, CartOp.add 0] ≠
      some (specCart [CartOp.add 0, CartOp.remove 0, CartOp.add 0]) := by
  refine ⟨by decide, by decide, ?_⟩
  intro h
  rw [show specCart [CartOp.add 0, CartOp.remove 0, CartOp.add 0] = [] from by decide] at h
  exact absurd h (by decide)

/-- Any cart reachable by events from a duplicate-free cart is
duplicate-free. -/
lemma runOps_nodup (ops : List CartOp) : ∀ (cart res : List Nat), cart.Nodup →
    runOps cart ops = some res → res.Nodup := by
  induction ops with
  | nil =>
    intro cart res hnd hrun
    simp only [runOps, Option.some.injEq] at hrun
    subst hrun
    exact hnd
  | cons op rest ih =>
    intro cart res hnd hrun
    cases op with
    | add p =>
      rw [show runOps cart (CartOp.add p :: rest) = runOps (addToCart cart p) rest
        from rfl] at hrun
      by_cases hp : p ∈ cart
      · rw [show addToCart cart p = cart by simp [addToCart, hp]] at hrun
        exact ih cart res hnd hrun
      · rw [show addToCart cart p = cart ++ [p] by simp [addToCart, hp]] at hrun
        exact ih (cart ++ [p]) res (by simp [List.nodup_append, hnd, hp]) hrun
    | remove p =>
      rw [show runOps cart (CartOp.remove p :: rest) =
        (if p ∈ cart then runOps (cart.erase p) rest else none) from rfl] at hrun
      by_cases hp : p ∈ cart
      · rw [if_pos hp] at hrun
        exact ih (cart.erase p) res (hnd.erase p) hrun
      · rw [if_neg hp] at hrun
        exact absurd hrun (by simp)

/-- Claim C4: every reachable cart is duplicate-free, a present path is
counted exactly once, and re-adding a present path is a no-op. -/
theorem cart_add_idempotent (ops : List CartOp) (cart : List Nat)
    (hrun : runOps [] ops = some cart) :
    cart.Nodup ∧ (∀ p ∈ cart, cart.count p = 1) ∧
      (∀ p ∈ cart, addToCart cart p = cart) := by
  have hnd : cart.Nodup := runOps_nodup ops [] cart List.nodup_nil hrun
  exact ⟨hnd, fun p hp => List.count_eq_one_of_mem hnd hp,
    fun p hp => by simp [addToCart, hp]⟩

/-- Witness for C4: adding path 3 twice yields the cart `[3]`, with no
duplicate and count 1. -/
theorem cart_add_idempotent_witness :
    ([3] : List Nat).Nodup ∧ (∀ p ∈ ([3] : List Nat), ([3] : List Nat).count p = 1) ∧
      (∀ p ∈ ([3] : List Nat), addToCart [3] p = [3]) :=
  cart_add_idempotent [CartOp.add 3, CartOp.add 3] [3] (by decide)

/-- Claim C8 (amended): `list.remove` removes the first exact-match
occurrence of a present path; applied to an absent path it raises
`ValueError` (modelled `none`) instead of being a no-op. -/
theorem remove_semantics (cart : List Nat) (p : Nat) :
    (p ∈ cart → pyListRemove cart p = some (cart.erase p)) ∧
    (p ∉ cart → pyListRemove cart p = none) := by
  constructor <;> intro h <;> simp [pyListRemove, h]

/-- Witness for C8: removing 5 from `[5]` erases it; removing 7 raises. -/
theorem remove_semantics_witness :
    pyListRemove [5] 5 = some (([5] : List Nat).erase 5) ∧
      pyListRemove [5] 7 = none :=
  ⟨(remove_semantics [5] 5).1 (by decide), (remove_semantics [5] 7).2 (by decide)⟩

/-- Counterexample to claim C8 as stated: removing path 0 from the empty
cart raises `ValueError` (`none`); it does not return the cart unchanged. -/
theorem remove_absent_raises :
    pyListRemove ([] : List Nat) 0 = none ∧
      pyListRemove ([] : List Nat) 0 ≠ some [] := by
  decide

/-- Claim C5: exporting with an empty cart is refused with a warning and
no file list is handed to the exporter; any non-empty cart is exported. -/
theorem empty_cart_refused :
    accept ([] : List Nat) = AcceptOutcome.warnedEmpty ∧
    (∀ cart : List Nat, accept cart = AcceptOutcome.warnedEmpty ↔ cart = []) ∧
    (∀ cart : List Nat, cart ≠ [] → accept cart = AcceptOutcome.accepted cart) := by
  refine ⟨by decide, fun cart => ?_, fun cart h => ?_⟩
  · constructor
    · intro h
      by_contra hne
      rw [accept, show cart.isEmpty = false by simpa using hne] at h
      exact absurd h (by simp)
    · intro h
      subst h
      decide
  · simp [accept, show cart.isEmpty = false by simpa using h]

/-- Witness for C5: a singleton cart is accepted for export unchanged. -/
theorem empty_cart_refused_witness :
    accept ([4] : List Nat) = AcceptOutcome.accepted [4] :=
  empty_cart_refused.2.2 [4] (by decide)

/-- Claim C9 (amended): a blank (whitespace-only) filter admits every
path; a non-blank filter admits exactly the paths whose lower-cased suffix
is a member of the derived normalized set — which is empty, rejecting
every path, when the non-blank text contains only empty entries. -/
theorem ext_filter_semantics (input path : List Char) :
    (pyStrip input = [] → allowed_ext input path = true) ∧
    (pyStrip input ≠ [] →
      (allowed_ext input path = true ↔
        (pySuffix path).map pyLower ∈ allowedSetOf (pyStrip input))) := by
  constructor
  · intro h
    simp [allowed_ext, h]
  · intro h
    have hne : (pyStrip input).isEmpty = false := by
      cases he : pyStrip input with
      | nil => exact absurd he h
      | cons a t => rfl
    rw [show allowed_ext input path =
      (allowedSetOf (pyStrip input)).contains ((pySuffix path).map pyLower) by
        simp [allowed_ext, hne]]
    exact List.elem_iff

/-- Witness for C9: a blank filter admits `x`; the filter text `py` admits
the path `a.PY` through case folding. -/
theorem ext_filter_semantics_witness :
    allowed_ext [] ['x'] = true ∧
      allowed_ext ['p', 'y'] ['a', '.', 'P', 'Y'] = true :=
  ⟨(ext_filter_semantics [] ['x']).1 rfl,
    ((ext_filter_semantics ['p', 'y'] ['a', '.', 'P', 'Y']).2
      (by decide)).mpr (by decide)⟩

/-- Counterexample to claim C9 as stated: the raw filter text `,` derives
an empty allowed set, yet `_allowed_ext` rejects every path (here `a.py`)
instead of returning true. -/
theorem ext_filter_empty_set_counterexample :
    allowedSetOf (pyStrip [',']) = [] ∧
      allowed_ext [','] ['a', '.', 'p', 'y'] = false := by
  decide

/-- Folding sequential appends produces the concatenation of the blocks. -/
lemma foldl_append_eq (g : (List Nat × List Nat) → List Nat) :
    ∀ (files : List (List Nat × List Nat)) (acc : List Nat),
      files.foldl (fun doc f => doc ++ g f) acc = acc ++ (files.map g).flatten
  | [], acc => by simp
  | f :: rest, acc => by
      simp only [List.foldl_cons, List.map_cons, List.flatten]
      rw [foldl_append_eq g rest (acc ++ g f)]
      simp [List.append_assoc]

/-- The two step functions of `export_to_txt` agree with appending one
spec record at a time. -/
lemma export_step_eq :
    (fun (doc : List Nat) (f : List Nat × List Nat) =>
      doc ++ f.1 ++ [10] ++ List.replicate (min HEADER_RULE_LEN f.1.length) 61 ++
        [10, 10] ++ pyRstrip (readFileText f.2) ++ [10, 10]) =
    (fun doc f => doc ++ specRecord f.1 (readFileText f.2)) := by
  funext doc f
  simp [specRecord, HEADER_RULE_LEN, List.append_assoc]

/-- Claim C2 (amended): for every non-empty file list, `export_to_txt`
produces exactly the claimed per-record format (header line, rule line,
blank line, trimmed content, blank line), deterministically. -/
theorem export_to_txt_format (files : List (List Nat × List Nat))
    (_h : files ≠ []) : export_to_txt files = specTxtDocument files := by
  unfold export_to_txt specTxtDocument
  rw [export_step_eq]
  have hfold := foldl_append_eq (fun f => specRecord f.1 (readFileText f.2)) files []
  simpa using hfold

/-- Witness for C2: the format equality at one concrete file. -/
theorem export_to_txt_format_witness :
    export_to_txt [([104], [104, 105])] = specTxtDocument [([104], [104, 105])] :=
  export_to_txt_format _ (by decide)

/-- Counterexample to claim C2 as stated: `create_txt` (the txt-version
writer also named by the claim) emits a newline before each header and
appends the content without trimming the trailing blank, so its output
differs from the claimed format. -/
theorem create_txt_counterexample :
    create_txt [([104], [104, 32])] ≠ specTxtDocument [([104], [104, 32])] := by
  decide

/-- Claim C6: when the bytes are not valid UTF-8, the writer decodes them
with the total Latin-1 fallback — the text is the full byte sequence, with
no truncation — and `create_txt` embeds it whole in the record. -/
theorem fallback_decoding (header bytes : List Nat)
    (h : utf8Decode? bytes = none) :
    readFileText bytes = latin1Decode bytes ∧
    (readFileText bytes).length = bytes.length ∧
    create_txt [(header, bytes)] =
      [10] ++ header ++ [10] ++ List.replicate (min 80 header.length) 61 ++
        [10, 10] ++ bytes ++ [10] := by
  have hrt : readFileText bytes = bytes := by
    unfold readFileText
    rw [h]
    rfl
  refine ⟨hrt, by rw [hrt], ?_⟩
  unfold create_txt
  simp [hrt, HEADER_RULE, List.append_assoc]

/-- Witness for C6: the byte 0xFF is invalid in UTF-8 at every position;
the file `[255]` is decoded by the fallback and included whole. -/
theorem fallback_decoding_witness :
    readFileText [255] = latin1Decode [255] ∧
    (readFileText [255]).length = ([255] : List Nat).length ∧
    create_txt [([104], [255])] =
      [10] ++ [104] ++ [10] ++ List.replicate (min 80 ([104] : List Nat).length) 61 ++
        [10, 10] ++ [255] ++ [10] :=
  fallback_decoding [104] [255] (by decide)

/-- Claim C7 (amended): a read failure during classification yields BINARY,
so the collector skips that file and continues with the rest; but a read
failure while writing is not caught — the export aborts exactly when some
listed file fails to read. -/
theorem unreadable_handling :
    is_binary_read ReadResult.oserror = true ∧
    (∀ (extInput : List Char) (cart : List (List Char)) (p : List Char)
        (rest : List (List Char × ReadResult)),
      add_folder extInput cart ((p, ReadResult.oserror) :: rest) =
        add_folder extInput cart rest) ∧
    (∀ files : List (List Nat × ReadResult),
      create_txt_run files = none ↔ ∃ f ∈ files, f.2 = ReadResult.oserror) := by
  refine ⟨rfl, fun extInput cart p rest => ?_, fun files => ?_⟩
  · simp [add_folder, should_include, is_binary_read]
  · induction files with
    | nil => simp [create_txt_run]
    | cons f rest ih =>
      cases hf : f.2 with
      | oserror =>
        simp only [create_txt_run, hf, true_iff]
        exact ⟨f, List.mem_cons_self f rest, hf⟩
      | ok bytes =>
        simp only [create_txt_run, hf, Option.map_eq_none']
        rw [ih]
        constructor
        · rintro ⟨x, hx, hxe⟩
          exact ⟨x, List.mem_cons_of_mem f hx, hxe⟩
        · rintro ⟨x, hx, hxe⟩
          rcases List.mem_cons.mp hx with h | h
          · subst h
            rw [hf] at hxe
            exact absurd hxe (by simp)
          · exact ⟨x, h, hxe⟩

/-- Counterexample to claim C7 as stated: a read failure on the second of
three files aborts the whole export (`none`), instead of skipping that
file and continuing with the third. -/
theorem write_failure_aborts :
    create_txt_run [([97], ReadResult.ok [104]), ([98], ReadResult.oserror),
      ([99], ReadResult.ok [105])] = none := by
  decide

end CombineFiles
